import Mathlib

/-!
Verification of the PowerPilot energy-monitoring pipeline core.

Shallow embedding of the services in `backend/app/services/` and their
repository layer: float arithmetic is modelled over `ℝ`, timestamps as
integer hour counts (the calendar-field extraction `dt.hour` /
`dt.weekday()` / `dt.month` is an uninterpreted parameter), the relational
store as a list of rows.  The stochastic fallback noise
(`np.random.normal`) is an arbitrary per-step real parameter.
-/

namespace PowerPilot

/-- Mean as computed by `np.mean` (sum over length; `0/0 = 0` never reached on
the non-empty inputs the services feed it). -/
noncomputable def npMean (l : List ℝ) : ℝ := l.sum / (l.length : ℝ)

/-- Population variance as computed by `np.std` squared (`ddof = 0`). -/
noncomputable def npVar (l : List ℝ) : ℝ :=
  ((l.map (fun x => (x - npMean l) ^ 2)).sum) / (l.length : ℝ)

/-- Population standard deviation, `np.std(l)`. -/
noncomputable def npStd (l : List ℝ) : ℝ := Real.sqrt (npVar l)

/-- Python `np.std(l) or 1.0`: the truthiness test replaces the value by `1.0`
exactly when it is `0.0`. -/
noncomputable def stdOr1 (l : List ℝ) : ℝ := if npStd l = 0 then 1 else npStd l

/-- Python `round(x, n)` (round to `n` decimal places; the tie-breaking
convention at exact halves is irrelevant to every property below). -/
noncomputable def roundTo (n : ℕ) (x : ℝ) : ℝ :=
  ((round (x * 10 ^ n) : ℤ) : ℝ) / 10 ^ n

/-- `Session.query(...).delete()` on a whole table. -/
def deleteAll {α : Type} (_s : List α) : List α := []

/-- `bulk_save_objects`: append the batch to the table. -/
def createBulk {α : Type} (s : List α) (rs : List α) : List α := s ++ rs

end PowerPilot

namespace PowerPilot.Anomaly

/-- A stored energy reading as handed to `AnomalyService.detect_and_store`
(fields of `EnergyData` it reads). -/
structure Reading where
  ts : ℤ
  consumption : ℝ
  hour : ℕ
  day : ℕ
  month : ℕ

/-- Row persisted to the anomaly table (`AnomalyDataCreate`). -/
structure Record where
  ts : ℤ
  consumption : ℝ
  is_anomaly : Bool
  anomaly_score : ℝ

/-- One entry of the returned `anomalies` list (`AnomalyDataResponse`). -/
structure RespRecord where
  id : ℕ
  ts : ℤ
  consumption : ℝ
  is_anomaly : Bool
  anomaly_score : ℝ

/-- `AnomalyListResponse`. -/
structure ListResponse where
  total_records : ℕ
  total_anomalies : ℕ
  anomaly_rate : ℝ
  anomalies : List RespRecord

/-- The injected IsolationForest-style classifier: `predict` returns `-1` for
anomaly and `1` for normal, `decision_function` the continuous score. -/
structure Classifier where
  predict : ℝ × ℕ × ℕ × ℕ → ℤ
  decisionFunction : ℝ × ℕ × ℕ × ℕ → ℝ

/-- The reduced feature row `[consumption_kwh, hour, day, month]`. -/
def features (r : Reading) : ℝ × ℕ × ℕ × ℕ := (r.consumption, r.hour, r.day, r.month)

/-- Fallback z-score: `np.abs((x - mean) / std)` with `std = np.std(xs) or 1.0`,
`xs` the full consumption sample. -/
noncomputable def zscore (xs : List ℝ) (x : ℝ) : ℝ := |(x - npMean xs) / stdOr1 xs|

open Classical in
/-- The per-reading records built by `detect_and_store`: model path uses the
classifier's decision (`predictions == -1`) and score; the statistical fallback
flags `z > 3` and scores `-z`. -/
noncomputable def scoredRecords (model : Option Classifier) (readings : List Reading) :
    List Record :=
  match model with
  | some m =>
      readings.map (fun r =>
        ⟨r.ts, r.consumption, m.predict (features r) == -1, m.decisionFunction (features r)⟩)
  | none =>
      let xs := readings.map Reading.consumption
      readings.map (fun r =>
        ⟨r.ts, r.consumption, decide (3 < zscore xs r.consumption), -(zscore xs r.consumption)⟩)

/-- `enumerate(anomaly_records, 1)`: number the anomalous records from 1. -/
def numberFrom : ℕ → List Record → List RespRecord
  | _, [] => []
  | i, r :: rest => ⟨i, r.ts, r.consumption, r.is_anomaly, r.anomaly_score⟩ :: numberFrom (i + 1) rest

/-- Forget the response id again (inverse of the numbering). -/
def stripResp (a : RespRecord) : Record := ⟨a.ts, a.consumption, a.is_anomaly, a.anomaly_score⟩

/-- `AnomalyService.detect_and_store`, returning the HTTP response together
with the new contents of the anomaly table. -/
noncomputable def detectAndStore (model : Option Classifier) (readings : List Reading)
    (store : List Record) : ListResponse × List Record :=
  if readings.isEmpty then (⟨0, 0, 0, []⟩, store)
  else
    let records := scoredRecords model readings
    let total := records.length
    let anomCount := records.countP (fun r => r.is_anomaly)
    let rate := if 0 < total then roundTo 2 ((anomCount : ℝ) / (total : ℝ) * 100) else 0
    let anomRecords := records.filter (fun r => r.is_anomaly)
    (⟨total, anomCount, rate, numberFrom 1 anomRecords⟩,
     createBulk (deleteAll store) records)

/-- Modelled from the spec's words only (for comparison with `stdOr1` taken
from the source): a standard deviation "with a floor of 1.0", i.e. never below
one. -/
noncomputable def stdFloorSpec (l : List ℝ) : ℝ := max (npStd l) 1

/-- The z-score the claim describes, with the floored standard deviation. -/
noncomputable def zscoreFloorSpec (xs : List ℝ) (x : ℝ) : ℝ :=
  |(x - npMean xs) / stdFloorSpec xs|

end PowerPilot.Anomaly

namespace PowerPilot.Forecast

/-- Calendar fields of a timestamp.  Timestamps are integer hour counts; the
Gregorian projection `dt.hour` / `dt.weekday()` / `dt.month` is supplied as an
uninterpreted function `cal` (no claim depends on the calendar itself). -/
structure Cal where
  hour : ℕ
  weekday : ℕ
  month : ℕ

/-- The 8-feature vector of `_build_features`, in its fixed order
`[hour, day, month, is_weekend, rolling_mean_24, rolling_std_24, lag_1h, lag_24h]`
(all entries are floats in the `np.array`). -/
structure Features where
  hour : ℝ
  day : ℝ
  month : ℝ
  isWeekend : ℝ
  rollingMean : ℝ
  rollingStd : ℝ
  lag1h : ℝ
  lag24h : ℝ

/-- The injected regressor: `predict` on a feature vector, plus the optional
self-reported quality metric (`hasattr(model, "score")` holds exactly when
`quality` is present). -/
structure Predictor where
  predict : Features → ℝ
  quality : Option ℝ

/-- `PredictionPoint`. -/
structure PredictionPoint where
  ts : ℤ
  predicted_value : ℝ

/-- Row persisted to the prediction table (`PredictionDataCreate`). -/
structure PredRecord where
  ts : ℤ
  predicted_value : ℝ
  prediction_horizon : ℕ

/-- `PredictionResponse` (the `horizon` echo field is omitted; it is the
request's own string). -/
structure PredictionResponse where
  predictions : List PredictionPoint
  model_accuracy : Option ℝ

/-- The loop state: `recent_values`, `lag_24_buffer`, `rolling_mean`,
`rolling_std` as carried across iterations of `PredictionService.predict`. -/
structure RollingState where
  window : List ℝ
  lagBuf : List ℝ
  rmean : ℝ
  rstd : ℝ

inductive Horizon
  | nextHour
  | nextDay
  | next7Days
deriving DecidableEq

/-- `list.append(x)` followed by `if len > 24: pop(0)`. -/
def push24 (l : List ℝ) (x : ℝ) : List ℝ :=
  let l2 := l ++ [x]
  if 24 < l2.length then l2.tail else l2

/-- The generated step timestamps: `range(1,25)` hours for a day,
`range(1, 24*7+1, 4)` for seven days, relative to `base`. -/
def stepsOf (base : ℤ) : Horizon → List ℤ
  | .nextHour => [base + 1]
  | .nextDay => (List.range 24).map (fun (i : ℕ) => base + ((i : ℤ) + 1))
  | .next7Days => (List.range 42).map (fun (i : ℕ) => base + (1 + 4 * (i : ℤ)))

/-- `values[-24:]`. -/
def tail24 (values : List ℝ) : List ℝ := values.drop (values.length - 24)

/-- Seed state: both buffers are `values[-24:]`; the seed rolling mean and std
are over `values[-min(24, len(values)):]`, which is the same tail. -/
noncomputable def initState (values : List ℝ) : RollingState :=
  ⟨tail24 values, tail24 values, npMean (tail24 values), stdOr1 (tail24 values)⟩

/-- The seed rolling mean — computed once from the historical tail. -/
noncomputable def seedMean (values : List ℝ) : ℝ := npMean (tail24 values)

/-- The `lag_1h` feature of a step:
`float(recent_values[-1]) if recent_values else rolling_mean`. -/
def lag1Feat (st : RollingState) : ℝ := st.window.getLastD st.rmean

/-- The `lag_24h` feature of a step:
`float(lag_24_buffer[0]) if len(lag_24_buffer) >= 24 else rolling_mean`. -/
def lag24Feat (st : RollingState) : ℝ :=
  if 24 ≤ st.lagBuf.length then st.lagBuf.headI else st.rmean

/-- `_build_features` for a step timestamp. -/
def buildFeatures (c : Cal) (rm rs l1 l24 : ℝ) : Features :=
  ⟨(c.hour : ℝ), (c.weekday : ℝ), (c.month : ℝ), if 5 ≤ c.weekday then 1 else 0, rm, rs, l1, l24⟩

/-- The raw per-step prediction before rounding: model path
`max(0, model.predict(features))`, fallback path the seasonal heuristic plus
the sampled noise value for this step (modelled as an arbitrary real). -/
noncomputable def rawPred (model : Option Predictor) (noise : ℕ → ℝ) (c : Cal) (i : ℕ)
    (st : RollingState) : ℝ :=
  match model with
  | some m => max 0 (m.predict (buildFeatures c st.rmean st.rstd (lag1Feat st) (lag24Feat st)))
  | none =>
      let hourFactor := 1 + 0.3 * Real.sin (((c.hour : ℝ) - 6) * Real.pi / 12)
      let weekendFactor := if 5 ≤ c.weekday then (0.85 : ℝ) else 1
      max 0 (st.rmean * hourFactor * weekendFactor + noise i)

/-- One iteration of the forecast loop: emit the rounded point, push the
unrounded prediction into both buffers, recompute the rolling statistics. -/
noncomputable def stepOnce (model : Option Predictor) (noise : ℕ → ℝ) (cal : ℤ → Cal)
    (i : ℕ) (ts : ℤ) (st : RollingState) : PredictionPoint × RollingState :=
  let p := rawPred model noise (cal ts) i st
  let w := push24 st.window p
  (⟨ts, roundTo 3 p⟩, ⟨w, push24 st.lagBuf p, npMean w, stdOr1 w⟩)

/-- The iterative forecast loop over the generated timestamps. -/
noncomputable def runLoop (model : Option Predictor) (noise : ℕ → ℝ) (cal : ℤ → Cal) :
    ℕ → List ℤ → RollingState → List PredictionPoint × RollingState
  | _, [], st => ([], st)
  | i, ts :: rest, st =>
      let (p, st1) := stepOnce model noise cal i ts st
      let (ps, st2) := runLoop model noise cal (i + 1) rest st1
      (p :: ps, st2)

/-- The loop state just before step `i` (state after the first `i` steps). -/
noncomputable def stateAt (model : Option Predictor) (noise : ℕ → ℝ) (cal : ℤ → Cal)
    (tss : List ℤ) (st : RollingState) (i : ℕ) : RollingState :=
  (runLoop model noise cal 0 (tss.take i) st).2

/-- The accuracy field:
`0.92 if model is not None and hasattr(model, "score") else None`. -/
noncomputable def modelAccuracy : Option Predictor → Option ℝ
  | none => none
  | some m => if m.quality.isSome then some (92 / 100) else none

/-- The `prediction_horizon` column value. -/
def horizonCode : Horizon → ℕ
  | .nextHour => 1
  | .nextDay => 24
  | .next7Days => 168

/-- The rows persisted for a batch of prediction points. -/
def predRecords (h : Horizon) (pts : List PredictionPoint) : List PredRecord :=
  pts.map (fun p => ⟨p.ts, p.predicted_value, horizonCode h⟩)

/-- `PredictionService.predict`: `values` is the consumption series ordered by
timestamp, `base` abstracts `max(last historical timestamp, now)`.  Returns the
HTTP response together with the new contents of the prediction table. -/
noncomputable def predictService (model : Option Predictor) (noise : ℕ → ℝ) (cal : ℤ → Cal)
    (values : List ℝ) (h : Horizon) (base : ℤ) (store : List PredRecord) :
    PredictionResponse × List PredRecord :=
  if values.isEmpty then (⟨[], none⟩, store)
  else
    let pts := (runLoop model noise cal 0 (stepsOf base h) (initState values)).1
    (⟨pts, modelAccuracy model⟩,
     createBulk (deleteAll store) (predRecords h pts))

/-- Modelled from the spec's words only (for comparison with `lag24Feat` taken
from the source): "`lag_24h` = the oldest value currently in the lag-24 buffer
if that buffer holds a full 24 entries, else the seed rolling mean." -/
noncomputable def lag24Spec (values : List ℝ) (st : RollingState) : ℝ :=
  if 24 ≤ st.lagBuf.length then st.lagBuf.headI else seedMean values

end PowerPilot.Forecast

namespace PowerPilot.Analytics

/-- A reading as seen by `EnergyService.get_analysis`'s trend computation:
the calendar date (`timestamp.dt.date`, abstracted to an integer day key)
and the consumption value.  Exact rationals model the float arithmetic. -/
structure Reading where
  day : ℤ
  consumption : ℚ
deriving DecidableEq

/-- The trend labels of `get_analysis` (string rendering abstracted). -/
inductive Trend
  | increasing
  | decreasing
  | stable
  | insufficientData
  | noData
deriving DecidableEq

/-- The distinct calendar days, ascending — `df.groupby(dt.date)` sorts its
group keys. -/
def distinctDays (rs : List Reading) : List ℤ :=
  ((rs.map Reading.day).toFinset).sort (· ≤ ·)

/-- Total consumption of one calendar day. -/
def daySum (rs : List Reading) (d : ℤ) : ℚ :=
  ((rs.filter (fun r => r.day = d)).map Reading.consumption).sum

/-- `daily_sums`: per-day totals in ascending day order. -/
def dailySums (rs : List Reading) : List ℚ := (distinctDays rs).map (daySum rs)

/-- Pandas `.mean()` of a column. -/
def meanQ (l : List ℚ) : ℚ := l.sum / (l.length : ℚ)

/-- The trend branch of `get_analysis`: `"No data"` on the empty early return;
`"Insufficient data"` below 3 daily sums; otherwise the halved-means
comparison with the ±5% thresholds (first half = first `len // 2` days). -/
def trendOf (rs : List Reading) : Trend :=
  if rs.isEmpty then .noData
  else
    let ds := dailySums rs
    if 3 ≤ ds.length then
      let fh := meanQ (ds.take (ds.length / 2))
      let sh := meanQ (ds.drop (ds.length / 2))
      if fh * (105 / 100) < sh then .increasing
      else if sh < fh * (95 / 100) then .decreasing
      else .stable
    else .insufficientData

end PowerPilot.Analytics

open PowerPilot

namespace PowerPilot

/-! Helper lemmas. -/

lemma roundTo_nonneg (n : ℕ) (x : ℝ) (h : 0 ≤ x) : 0 ≤ roundTo n x := by
  unfold roundTo
  apply div_nonneg _ (by positivity)
  have : (0 : ℤ) ≤ round (x * 10 ^ n) := by
    rw [round_eq]
    exact Int.floor_nonneg.mpr (by positivity)
  exact_mod_cast this

lemma roundTo2_le_100 (x : ℝ) (h : x ≤ 100) : roundTo 2 x ≤ 100 := by
  unfold roundTo
  rw [div_le_iff₀ (by norm_num : (0 : ℝ) < 10 ^ 2)]
  have h1 : ((round (x * 10 ^ 2) : ℤ) : ℝ) ≤ x * 10 ^ 2 + 1 / 2 := round_le_add_half _
  norm_num at h1 ⊢
  have h2 : (round (x * 100) : ℤ) < 10001 := by
    have : ((round (x * 100) : ℤ) : ℝ) < 10001 := by linarith
    exact_mod_cast this
  have h3 : ((round (x * 100) : ℤ) : ℝ) ≤ 10000 := by
    exact_mod_cast Int.lt_add_one_iff.mp h2
  linarith

lemma scoredRecords_length (model : Option Anomaly.Classifier)
    (readings : List Anomaly.Reading) :
    (Anomaly.scoredRecords model readings).length = readings.length := by
  cases model <;> simp [Anomaly.scoredRecords]

lemma numberFrom_map_strip (i : ℕ) (l : List Anomaly.Record) :
    (Anomaly.numberFrom i l).map Anomaly.stripResp = l := by
  induction l generalizing i with
  | nil => rfl
  | cons r rest ih => simp [Anomaly.numberFrom, Anomaly.stripResp, ih]

lemma numberFrom_length (i : ℕ) (l : List Anomaly.Record) :
    (Anomaly.numberFrom i l).length = l.length := by
  induction l generalizing i with
  | nil => rfl
  | cons r rest ih => simp [Anomaly.numberFrom, ih]

lemma detectAndStore_cons (model : Option Anomaly.Classifier) (r : Anomaly.Reading)
    (rest : List Anomaly.Reading) (store : List Anomaly.Record) :
    Anomaly.detectAndStore model (r :: rest) store =
      (⟨(Anomaly.scoredRecords model (r :: rest)).length,
        (Anomaly.scoredRecords model (r :: rest)).countP (fun r => r.is_anomaly),
        (if 0 < (Anomaly.scoredRecords model (r :: rest)).length
         then roundTo 2
            ((((Anomaly.scoredRecords model (r :: rest)).countP (fun r => r.is_anomaly)) : ℝ) /
              (((Anomaly.scoredRecords model (r :: rest)).length) : ℝ) * 100)
         else 0),
        Anomaly.numberFrom 1
          ((Anomaly.scoredRecords model (r :: rest)).filter (fun r => r.is_anomaly))⟩,
       Anomaly.scoredRecords model (r :: rest)) := by
  simp [Anomaly.detectAndStore, createBulk, deleteAll]

end PowerPilot

namespace PowerPilot

lemma runLoop_map_ts (model : Option Forecast.Predictor) (noise : ℕ → ℝ)
    (cal : ℤ → Forecast.Cal) :
    ∀ (tss : List ℤ) (i : ℕ) (st : Forecast.RollingState),
      ((Forecast.runLoop model noise cal i tss st).1).map Forecast.PredictionPoint.ts = tss := by
  intro tss
  induction tss with
  | nil => intro i st; rfl
  | cons ts rest ih =>
      intro i st
      simp [Forecast.runLoop, Forecast.stepOnce, ih]

lemma rawPred_nonneg (model : Option Forecast.Predictor) (noise : ℕ → ℝ)
    (c : Forecast.Cal) (i : ℕ) (st : Forecast.RollingState) :
    0 ≤ Forecast.rawPred model noise c i st := by
  cases model <;> exact le_max_left 0 _

lemma runLoop_val_nonneg (model : Option Forecast.Predictor) (noise : ℕ → ℝ)
    (cal : ℤ → Forecast.Cal) :
    ∀ (tss : List ℤ) (i : ℕ) (st : Forecast.RollingState)
      (p : Forecast.PredictionPoint), p ∈ (Forecast.runLoop model noise cal i tss st).1 →
      0 ≤ p.predicted_value := by
  intro tss
  induction tss with
  | nil => intro i st p hp; simp [Forecast.runLoop] at hp
  | cons ts rest ih =>
      intro i st p hp
      simp only [Forecast.runLoop, List.mem_cons] at hp
      rcases hp with hp | hp
      · subst hp
        exact roundTo_nonneg 3 _ (rawPred_nonneg _ _ _ _ _)
      · exact ih _ _ _ hp

lemma push24_length_le (l : List ℝ) (x : ℝ) (h : l.length ≤ 24) :
    (Forecast.push24 l x).length ≤ 24 := by
  unfold Forecast.push24
  dsimp only
  split
  · simpa using h
  · rename_i hle
    simp only [List.length_append, List.length_singleton] at hle ⊢
    omega

lemma push24_at_cap (l : List ℝ) (x : ℝ) (h : l.length = 24) :
    Forecast.push24 l x = l.tail ++ [x] := by
  unfold Forecast.push24
  dsimp only
  rw [if_pos (by simp [h])]
  cases l with
  | nil => simp at h
  | cons a t => simp

lemma tail24_length_le (values : List ℝ) : (Forecast.tail24 values).length ≤ 24 := by
  simp only [Forecast.tail24, List.length_drop]
  omega

lemma runLoop_state_sizes (model : Option Forecast.Predictor) (noise : ℕ → ℝ)
    (cal : ℤ → Forecast.Cal) :
    ∀ (tss : List ℤ) (i : ℕ) (st : Forecast.RollingState),
      st.window.length ≤ 24 → st.lagBuf.length ≤ 24 →
      ((Forecast.runLoop model noise cal i tss st).2.window.length ≤ 24 ∧
       (Forecast.runLoop model noise cal i tss st).2.lagBuf.length ≤ 24) := by
  intro tss
  induction tss with
  | nil => intro i st h1 h2; exact ⟨h1, h2⟩
  | cons ts rest ih =>
      intro i st h1 h2
      simp only [Forecast.runLoop, Forecast.stepOnce]
      exact ih _ _ (push24_length_le _ _ h1) (push24_length_le _ _ h2)

lemma runLoop_rmean_inv (model : Option Forecast.Predictor) (noise : ℕ → ℝ)
    (cal : ℤ → Forecast.Cal) :
    ∀ (tss : List ℤ) (i : ℕ) (st : Forecast.RollingState),
      st.rmean = npMean st.window →
      (Forecast.runLoop model noise cal i tss st).2.rmean =
        npMean (Forecast.runLoop model noise cal i tss st).2.window := by
  intro tss
  induction tss with
  | nil => intro i st h; exact h
  | cons ts rest ih =>
      intro i st _
      simp only [Forecast.runLoop, Forecast.stepOnce]
      exact ih _ _ rfl

end PowerPilot

/-- C3: a model exposing a self-reported quality metric (here `0.5`) does not
get that metric surfaced — the code reports the fabricated constant `0.92`
whenever a model with a `score` attribute is supplied (and `none` when no
model is supplied).  This contradicts the spec's stated intent ("surface it;
otherwise report unavailable, never a hardcoded constant"), which the source
itself marks as a placeholder. -/
theorem accuracy_is_fabricated_constant :
    Forecast.modelAccuracy (some ⟨fun _ => 0, some (1 / 2)⟩) = some (92 / 100) ∧
    ((92 : ℝ) / 100) ≠ 1 / 2 ∧
    Forecast.modelAccuracy none = none := by
  refine ⟨by simp [Forecast.modelAccuracy], by norm_num, rfl⟩

/-- C8: the reported anomaly rate is `count / total × 100` rounded to two
decimal places, lies in `[0, 100]`, and is `0` with zero counts and an empty
result on empty input. -/
theorem anomaly_rate_formula_and_bounds (model : Option Anomaly.Classifier)
    (readings : List Anomaly.Reading) (store : List Anomaly.Record) :
    (Anomaly.detectAndStore model readings store).1.anomaly_rate =
      (if 0 < (Anomaly.detectAndStore model readings store).1.total_records
       then roundTo 2
          (((Anomaly.detectAndStore model readings store).1.total_anomalies : ℝ) /
            ((Anomaly.detectAndStore model readings store).1.total_records : ℝ) * 100)
       else 0) ∧
    0 ≤ (Anomaly.detectAndStore model readings store).1.anomaly_rate ∧
    (Anomaly.detectAndStore model readings store).1.anomaly_rate ≤ 100 ∧
    ((Anomaly.detectAndStore model readings store).1.total_records = 0 →
      (Anomaly.detectAndStore model readings store).1.anomaly_rate = 0 ∧
      (Anomaly.detectAndStore model readings store).1.total_anomalies = 0 ∧
      (Anomaly.detectAndStore model readings store).1.anomalies = []) := by
  cases readings with
  | nil => simp [Anomaly.detectAndStore]
  | cons r rest =>
      rw [detectAndStore_cons]
      dsimp only
      have hlen : 0 < (Anomaly.scoredRecords model (r :: rest)).length := by
        rw [scoredRecords_length]; simp
      have hcle : (Anomaly.scoredRecords model (r :: rest)).countP (fun t => t.is_anomaly) ≤
          (Anomaly.scoredRecords model (r :: rest)).length := List.countP_le_length _
      have harg0 : (0 : ℝ) ≤
          ((Anomaly.scoredRecords model (r :: rest)).countP (fun t => t.is_anomaly) : ℝ) /
            ((Anomaly.scoredRecords model (r :: rest)).length : ℝ) * 100 := by positivity
      have harg1 :
          ((Anomaly.scoredRecords model (r :: rest)).countP (fun t => t.is_anomaly) : ℝ) /
            ((Anomaly.scoredRecords model (r :: rest)).length : ℝ) * 100 ≤ 100 := by
        have hq : ((Anomaly.scoredRecords model (r :: rest)).countP (fun t => t.is_anomaly) : ℝ) /
            ((Anomaly.scoredRecords model (r :: rest)).length : ℝ) ≤ 1 := by
          rw [div_le_one (by exact_mod_cast hlen)]
          exact_mod_cast hcle
        linarith
      refine ⟨rfl, ?_, ?_, fun habs => absurd habs (by omega)⟩
      · rw [if_pos hlen]
        exact roundTo_nonneg _ _ harg0
      · rw [if_pos hlen]
        exact roundTo2_le_100 _ harg1

/-- C10: the `anomalies` list of the response is exactly the scored records
whose `is_anomaly` flag is true, in order; its length equals
`total_anomalies`; every listed entry is flagged; normal records are counted
in `total_records` and persisted but never listed. -/
theorem anomalies_list_exactly_flagged (model : Option Anomaly.Classifier)
    (readings : List Anomaly.Reading) (store : List Anomaly.Record)
    (h : readings ≠ []) :
    ((Anomaly.detectAndStore model readings store).1.anomalies).map Anomaly.stripResp =
      (Anomaly.scoredRecords model readings).filter (fun t => t.is_anomaly) ∧
    ((Anomaly.detectAndStore model readings store).1.anomalies).length =
      (Anomaly.detectAndStore model readings store).1.total_anomalies ∧
    (∀ a ∈ (Anomaly.detectAndStore model readings store).1.anomalies,
      a.is_anomaly = true) ∧
    (Anomaly.detectAndStore model readings store).1.total_records = readings.length ∧
    (Anomaly.detectAndStore model readings store).2 =
      Anomaly.scoredRecords model readings := by
  cases readings with
  | nil => exact absurd rfl h
  | cons r rest =>
      rw [detectAndStore_cons]
      dsimp only
      refine ⟨numberFrom_map_strip _ _, ?_, ?_, scoredRecords_length _ _, rfl⟩
      · rw [numberFrom_length, List.countP_eq_length_filter]
      · intro a ha
        have hmem : Anomaly.stripResp a ∈
            (Anomaly.numberFrom 1
              ((Anomaly.scoredRecords model (r :: rest)).filter
                (fun t => t.is_anomaly))).map Anomaly.stripResp :=
          List.mem_map_of_mem _ ha
        rw [numberFrom_map_strip] at hmem
        exact (List.mem_filter.mp hmem).2

/-- C10 witness at a concrete input. -/
theorem anomalies_list_exactly_flagged_witness :
    ((Anomaly.detectAndStore none [⟨0, 2, 0, 0, 1⟩] []).1.anomalies).length =
      (Anomaly.detectAndStore none [⟨0, 2, 0, 0, 1⟩] []).1.total_anomalies :=
  (anomalies_list_exactly_flagged none [⟨0, 2, 0, 0, 1⟩] [] (by simp)).2.1

/-- C9 counterexample: a detection run on an empty reading set (and likewise a
forecast run on an empty history) returns before touching the persisted
store, so a previously stored record survives although the run produced no
records — the claim fails for such runs. -/
theorem stale_records_survive_empty_run :
    (Anomaly.detectAndStore none [] [⟨0, 0, false, 0⟩]).2 = [⟨0, 0, false, 0⟩] ∧
    (Anomaly.detectAndStore none [] [⟨0, 0, false, 0⟩]).1.total_records = 0 ∧
    ([(⟨0, 0, false, 0⟩ : Anomaly.Record)]) ≠ ([] : List Anomaly.Record) ∧
    (Forecast.predictService none (fun _ => 0) (fun _ => ⟨0, 0, 1⟩) [] .nextHour 0
        [⟨0, 1, 1⟩]).2 = [⟨0, 1, 1⟩] := by
  refine ⟨rfl, rfl, by simp, rfl⟩

/-- C9 (amended): every run on a non-empty input first clears the persisted
table and inserts exactly this run's records — whatever the store held
before, afterwards it holds exactly the records produced by the run. -/
theorem run_replaces_persisted_records (model : Option Anomaly.Classifier)
    (readings : List Anomaly.Reading) (store : List Anomaly.Record)
    (pmodel : Option Forecast.Predictor) (noise : ℕ → ℝ) (cal : ℤ → Forecast.Cal)
    (values : List ℝ) (hz : Forecast.Horizon) (base : ℤ)
    (pstore : List Forecast.PredRecord)
    (h1 : readings ≠ []) (h2 : values ≠ []) :
    (Anomaly.detectAndStore model readings store).2 =
      Anomaly.scoredRecords model readings ∧
    (Forecast.predictService pmodel noise cal values hz base pstore).2 =
      Forecast.predRecords hz
        ((Forecast.predictService pmodel noise cal values hz base pstore).1.predictions) := by
  constructor
  · cases readings with
    | nil => exact absurd rfl h1
    | cons r rest => rw [detectAndStore_cons]
  · cases values with
    | nil => exact absurd rfl h2
    | cons v rest =>
        simp [Forecast.predictService, createBulk, deleteAll]

/-- C9 witness at a concrete input. -/
theorem run_replaces_persisted_records_witness :
    (Anomaly.detectAndStore none [⟨0, 2, 0, 0, 1⟩] [⟨5, 1, true, 0⟩]).2 =
      Anomaly.scoredRecords none [⟨0, 2, 0, 0, 1⟩] :=
  (run_replaces_persisted_records none [⟨0, 2, 0, 0, 1⟩] [⟨5, 1, true, 0⟩]
    none (fun _ => 0) (fun _ => ⟨0, 0, 1⟩) [1] .nextHour 0 []
    (by simp) (by simp)).1

/-- C5: a non-empty history yields exactly 1 point at `base+1h` for
`NEXT_HOUR`, the 24 points `base+1h … base+24h` in order for `NEXT_DAY`, and
the 42 points `base+1h` stepping by 4 hours for `NEXT_7_DAYS`. -/
theorem horizon_cardinality (model : Option Forecast.Predictor) (noise : ℕ → ℝ)
    (cal : ℤ → Forecast.Cal) (values : List ℝ) (base : ℤ)
    (store : List Forecast.PredRecord) (h : values ≠ []) :
    ((Forecast.predictService model noise cal values .nextHour base store).1.predictions).map
        Forecast.PredictionPoint.ts = [base + 1] ∧
    ((Forecast.predictService model noise cal values .nextHour base store).1.predictions).length
        = 1 ∧
    ((Forecast.predictService model noise cal values .nextDay base store).1.predictions).map
        Forecast.PredictionPoint.ts = (List.range 24).map (fun (i : ℕ) => base + ((i : ℤ) + 1)) ∧
    ((Forecast.predictService model noise cal values .nextDay base store).1.predictions).length
        = 24 ∧
    ((Forecast.predictService model noise cal values .next7Days base store).1.predictions).map
        Forecast.PredictionPoint.ts = (List.range 42).map (fun (i : ℕ) => base + (1 + 4 * (i : ℤ))) ∧
    ((Forecast.predictService model noise cal values .next7Days base store).1.predictions).length
        = 42 := by
  cases values with
  | nil => exact absurd rfl h
  | cons v rest =>
      have hlen : ∀ (hz : Forecast.Horizon),
          ((Forecast.predictService model noise cal (v :: rest) hz base store).1.predictions).map
            Forecast.PredictionPoint.ts = Forecast.stepsOf base hz := by
        intro hz
        simp [Forecast.predictService, runLoop_map_ts]
      have hcard : ∀ (hz : Forecast.Horizon),
          ((Forecast.predictService model noise cal (v :: rest) hz base store).1.predictions).length
            = (Forecast.stepsOf base hz).length := by
        intro hz
        have := congrArg List.length (hlen hz)
        simpa using this
      refine ⟨?_, ?_, ?_, ?_, ?_, ?_⟩
      · rw [hlen]; rfl
      · rw [hcard]; rfl
      · rw [hlen]; rfl
      · rw [hcard]; simp only [Forecast.stepsOf, List.length_map, List.length_range]
      · rw [hlen]; rfl
      · rw [hcard]; simp only [Forecast.stepsOf, List.length_map, List.length_range]

/-- C5 witness at a concrete input. -/
theorem horizon_cardinality_witness :
    ((Forecast.predictService none (fun _ => 0) (fun _ => ⟨0, 0, 1⟩) [1] .nextHour 0
        []).1.predictions).length = 1 :=
  (horizon_cardinality none (fun _ => 0) (fun _ => ⟨0, 0, 1⟩) [1] 0 [] (by simp)).2.1

/-- C6: every generated prediction point has a non-negative value, on the
model path and the fallback path alike — the raw value is clamped at zero
before rounding. -/
theorem predictions_nonneg (model : Option Forecast.Predictor) (noise : ℕ → ℝ)
    (cal : ℤ → Forecast.Cal) (values : List ℝ) (hz : Forecast.Horizon) (base : ℤ)
    (store : List Forecast.PredRecord) (p : Forecast.PredictionPoint)
    (hp : p ∈ (Forecast.predictService model noise cal values hz base store).1.predictions) :
    0 ≤ p.predicted_value := by
  cases values with
  | nil => simp [Forecast.predictService] at hp
  | cons v rest =>
      simp only [Forecast.predictService, List.isEmpty_cons, Bool.false_eq_true,
        if_false] at hp
      exact runLoop_val_nonneg model noise cal _ _ _ _ hp

/-- C6 witness: a model returning `-5` still yields the clamped point `0`. -/
theorem predictions_nonneg_witness :
    0 ≤ (Forecast.PredictionPoint.mk 1 0).predicted_value :=
  predictions_nonneg (some ⟨fun _ => -5, none⟩) (fun _ => 0) (fun _ => ⟨0, 0, 1⟩) [2]
    .nextHour 0 [] ⟨1, 0⟩ (by
      have h5 : max (0 : ℝ) (-5) = 0 := max_eq_left (by norm_num)
      simp [Forecast.predictService, Forecast.runLoop, Forecast.stepOnce, Forecast.rawPred,
        Forecast.stepsOf, Forecast.initState, Forecast.tail24, h5, roundTo])

/-- C4: after any number of forecast steps both buffers hold at most 24
elements, and an insertion at capacity 24 drops the oldest element (FIFO). -/
theorem rolling_buffers_bounded (model : Option Forecast.Predictor) (noise : ℕ → ℝ)
    (cal : ℤ → Forecast.Cal) (values : List ℝ) (hz : Forecast.Horizon) (base : ℤ)
    (i : ℕ) :
    ((Forecast.stateAt model noise cal (Forecast.stepsOf base hz)
        (Forecast.initState values) i).window.length ≤ 24 ∧
     (Forecast.stateAt model noise cal (Forecast.stepsOf base hz)
        (Forecast.initState values) i).lagBuf.length ≤ 24) ∧
    ∀ (l : List ℝ) (x : ℝ), l.length = 24 → Forecast.push24 l x = l.tail ++ [x] := by
  constructor
  · exact runLoop_state_sizes model noise cal _ _ _
      (tail24_length_le values) (tail24_length_le values)
  · exact fun l x hl => push24_at_cap l x hl

/-- C4 witness at a concrete input. -/
theorem rolling_buffers_bounded_witness :
    (Forecast.stateAt none (fun _ => 0) (fun _ => ⟨0, 0, 1⟩) (Forecast.stepsOf 0 .nextDay)
        (Forecast.initState [1]) 3).window.length ≤ 24 ∧
    Forecast.push24 (List.replicate 24 0) 5 = (List.replicate 24 0).tail ++ [5] :=
  ⟨(rolling_buffers_bounded none (fun _ => 0) (fun _ => ⟨0, 0, 1⟩) [1] .nextDay 0 3).1.1,
   (rolling_buffers_bounded none (fun _ => 0) (fun _ => ⟨0, 0, 1⟩) [1] .nextDay 0 3).2
     (List.replicate 24 0) 5 (by simp)⟩

/-- C1 counterexample: with history `[0]` (seed rolling mean `0`), a constant
model predicting `10`, and the `NEXT_DAY` horizon, the `lag_24h` feature used
at the second step is the recomputed rolling mean `5`, not the seed rolling
mean `0` that the spec-side fallback (`lag24Spec`) prescribes. -/
theorem lag24_not_seed_mean :
    Forecast.lag24Feat
        (Forecast.stateAt (some ⟨fun _ => 10, none⟩) (fun _ => 0) (fun _ => ⟨0, 0, 1⟩)
          (Forecast.stepsOf 0 .nextDay) (Forecast.initState [0]) 1) = 5 ∧
    Forecast.lag24Spec [0]
        (Forecast.stateAt (some ⟨fun _ => 10, none⟩) (fun _ => 0) (fun _ => ⟨0, 0, 1⟩)
          (Forecast.stepsOf 0 .nextDay) (Forecast.initState [0]) 1) = 0 ∧
    (5 : ℝ) ≠ 0 := by
  have hsteps : (Forecast.stepsOf 0 Forecast.Horizon.nextDay).take 1 = [1] := by decide
  have hmax : max (0 : ℝ) 10 = 10 := max_eq_right (by norm_num)
  unfold Forecast.stateAt
  rw [hsteps]
  refine ⟨?_, ?_, by norm_num⟩
  · simp [Forecast.runLoop, Forecast.stepOnce, Forecast.rawPred, Forecast.initState,
      Forecast.tail24, Forecast.push24, Forecast.lag24Feat, hmax, npMean]
    norm_num
  · simp [Forecast.runLoop, Forecast.stepOnce, Forecast.rawPred, Forecast.initState,
      Forecast.tail24, Forecast.push24, Forecast.lag24Spec, Forecast.seedMean, hmax, npMean]

/-- C1 (amended): at each step the `lag_24h` feature is the oldest entry of
the lag-24 buffer when that buffer holds a full 24 entries, and otherwise the
current rolling mean — the mean of the rolling window as updated after each
step, which coincides with the seed rolling mean at the first step. -/
theorem lag24_feature_characterization (model : Option Forecast.Predictor) (noise : ℕ → ℝ)
    (cal : ℤ → Forecast.Cal) (values : List ℝ) (hz : Forecast.Horizon) (base : ℤ)
    (i : ℕ) :
    Forecast.lag24Feat (Forecast.stateAt model noise cal (Forecast.stepsOf base hz)
        (Forecast.initState values) i) =
      (if 24 ≤ (Forecast.stateAt model noise cal (Forecast.stepsOf base hz)
            (Forecast.initState values) i).lagBuf.length
       then (Forecast.stateAt model noise cal (Forecast.stepsOf base hz)
            (Forecast.initState values) i).lagBuf.headI
       else npMean (Forecast.stateAt model noise cal (Forecast.stepsOf base hz)
            (Forecast.initState values) i).window) ∧
    (Forecast.stateAt model noise cal (Forecast.stepsOf base hz)
        (Forecast.initState values) 0).rmean = Forecast.seedMean values := by
  constructor
  · have hinv : (Forecast.stateAt model noise cal (Forecast.stepsOf base hz)
        (Forecast.initState values) i).rmean =
        npMean (Forecast.stateAt model noise cal (Forecast.stepsOf base hz)
          (Forecast.initState values) i).window :=
      runLoop_rmean_inv model noise cal _ _ _ rfl
    simp only [Forecast.lag24Feat, hinv]
  · rfl

/-- C7 counterexample: an empty reading set spans zero (fewer than 3)
distinct calendar days, yet the trend label is the separate "No data" label
of the early return, not "Insufficient data". -/
theorem trend_nodata_on_empty :
    Analytics.trendOf [] = Analytics.Trend.noData ∧
    (Analytics.distinctDays []).length < 3 ∧
    Analytics.Trend.noData ≠ Analytics.Trend.insufficientData := by
  refine ⟨rfl, by simp [Analytics.distinctDays], by decide⟩

/-- C7 (amended): for a non-empty reading set the trend is "insufficient
data" exactly below 3 distinct calendar days, and otherwise decided by
comparing the mean of the first `floor(n/2)` daily sums with the mean of the
remaining ones against the ±5% thresholds (empty input yields the separate
"no data" label). -/
theorem trend_rule (rs : List Analytics.Reading) (h : rs ≠ []) :
    ((Analytics.distinctDays rs).length < 3 →
      Analytics.trendOf rs = Analytics.Trend.insufficientData) ∧
    (3 ≤ (Analytics.distinctDays rs).length →
      Analytics.trendOf rs =
        (if Analytics.meanQ ((Analytics.dailySums rs).take ((Analytics.dailySums rs).length / 2)) *
              (105 / 100) <
            Analytics.meanQ ((Analytics.dailySums rs).drop ((Analytics.dailySums rs).length / 2))
         then Analytics.Trend.increasing
         else if Analytics.meanQ ((Analytics.dailySums rs).drop ((Analytics.dailySums rs).length / 2)) <
            Analytics.meanQ ((Analytics.dailySums rs).take ((Analytics.dailySums rs).length / 2)) *
              (95 / 100)
         then Analytics.Trend.decreasing
         else Analytics.Trend.stable)) := by
  have hlen : (Analytics.dailySums rs).length = (Analytics.distinctDays rs).length := by
    simp [Analytics.dailySums]
  have hne : rs.isEmpty = false := by
    cases rs with
    | nil => exact absurd rfl h
    | cons a t => rfl
  constructor
  · intro hlt
    simp only [Analytics.trendOf, hne, Bool.false_eq_true, if_false]
    rw [if_neg (by omega : ¬ 3 ≤ (Analytics.dailySums rs).length)]
  · intro hge
    simp only [Analytics.trendOf, hne, Bool.false_eq_true, if_false]
    rw [if_pos (by omega : 3 ≤ (Analytics.dailySums rs).length)]

/-- C7 witness: two distinct days are below the threshold. -/
theorem trend_rule_witness :
    Analytics.trendOf [⟨0, 1⟩, ⟨1, 2⟩] = Analytics.Trend.insufficientData :=
  (trend_rule [⟨0, 1⟩, ⟨1, 2⟩] (by decide)).1 (by simp [Analytics.distinctDays])

/-- C2 counterexample: for the two-reading sample with consumptions `0` and
`1` the population standard deviation is `1/2`; the code divides by `1/2`
(z-scores `1`, reported scores `-1`), while a standard deviation floored at
`1.0` as the claim states would give z-scores `1/2` and scores `-1/2`. -/
theorem zscore_not_floored :
    ((Anomaly.scoredRecords none [⟨0, 0, 0, 0, 1⟩, ⟨1, 1, 0, 0, 1⟩]).map
        Anomaly.Record.anomaly_score) = [-1, -1] ∧
    ([⟨0, 0, 0, 0, 1⟩, ⟨1, 1, 0, 0, 1⟩] : List Anomaly.Reading).map
        (fun r => -(Anomaly.zscoreFloorSpec [0, 1] r.consumption)) =
      [-(1 / 2), -(1 / 2)] ∧
    ([(-1 : ℝ), -1] ≠ [-(1 / 2), -(1 / 2)]) := by
  have hmean : npMean [0, 1] = 1 / 2 := by
    norm_num [npMean]
  have hvar : npVar [0, 1] = 1 / 4 := by
    norm_num [npVar, hmean]
  have hstd : npStd [0, 1] = 1 / 2 := by
    rw [npStd, hvar, show (1 / 4 : ℝ) = (1 / 2) ^ 2 by norm_num,
      Real.sqrt_sq (by norm_num : (0 : ℝ) ≤ 1 / 2)]
  have hor : stdOr1 [0, 1] = 1 / 2 := by
    rw [stdOr1, hstd, if_neg (by norm_num)]
  have hz0 : Anomaly.zscore [0, 1] 0 = 1 := by
    rw [Anomaly.zscore, hmean, hor, show ((0 : ℝ) - 1 / 2) / (1 / 2) = -1 by norm_num,
      abs_neg, abs_one]
  have hz1 : Anomaly.zscore [0, 1] 1 = 1 := by
    rw [Anomaly.zscore, hmean, hor, show ((1 : ℝ) - 1 / 2) / (1 / 2) = 1 by norm_num, abs_one]
  have hfloor : Anomaly.stdFloorSpec [0, 1] = 1 := by
    rw [Anomaly.stdFloorSpec, hstd]
    exact max_eq_right (by norm_num)
  have hzf0 : Anomaly.zscoreFloorSpec [0, 1] 0 = 1 / 2 := by
    rw [Anomaly.zscoreFloorSpec, hmean, hfloor,
      show ((0 : ℝ) - 1 / 2) / 1 = -(1 / 2) by norm_num, abs_neg]
    exact abs_of_nonneg (by norm_num)
  have hzf1 : Anomaly.zscoreFloorSpec [0, 1] 1 = 1 / 2 := by
    rw [Anomaly.zscoreFloorSpec, hmean, hfloor,
      show ((1 : ℝ) - 1 / 2) / 1 = 1 / 2 by norm_num]
    exact abs_of_nonneg (by norm_num)
  refine ⟨?_, ?_, ?_⟩
  · simp [Anomaly.scoredRecords, hz0, hz1]
  · simp [hzf0, hzf1]
  · norm_num

open Classical in
/-- C2 (amended): on the no-model path, each reading's record carries the
score `-|z|` and the flag `|z| > 3`, where `z` is the reading's consumption
standardized against the full sample's mean and population standard
deviation, the latter replaced by `1.0` exactly when it is zero (not floored
at `1.0`). -/
theorem zscore_fallback_characterization (readings : List Anomaly.Reading) (i : ℕ)
    (r : Anomaly.Reading) (h : readings[i]? = some r) :
    ∃ rec : Anomaly.Record,
      (Anomaly.scoredRecords none readings)[i]? = some rec ∧
      rec.anomaly_score =
        -(|(r.consumption - npMean (readings.map Anomaly.Reading.consumption)) /
            (if npStd (readings.map Anomaly.Reading.consumption) = 0 then 1
             else npStd (readings.map Anomaly.Reading.consumption))|) ∧
      (rec.is_anomaly = true ↔
        3 < |(r.consumption - npMean (readings.map Anomaly.Reading.consumption)) /
            (if npStd (readings.map Anomaly.Reading.consumption) = 0 then 1
             else npStd (readings.map Anomaly.Reading.consumption))|) ∧
      rec.ts = r.ts ∧ rec.consumption = r.consumption := by
  have hx : (Anomaly.scoredRecords none readings)[i]? =
      some ⟨r.ts, r.consumption,
        decide (3 < Anomaly.zscore (readings.map Anomaly.Reading.consumption) r.consumption),
        -(Anomaly.zscore (readings.map Anomaly.Reading.consumption) r.consumption)⟩ := by
    simp [Anomaly.scoredRecords, List.getElem?_map, h]
  refine ⟨_, hx, rfl, ?_, rfl, rfl⟩
  simp [Anomaly.zscore, stdOr1]

/-- C2 witness at a concrete one-reading input. -/
theorem zscore_fallback_witness :
    ∃ rec : Anomaly.Record,
      (Anomaly.scoredRecords none [⟨0, 2, 0, 0, 1⟩])[0]? = some rec ∧
      rec.anomaly_score =
        -(|((2 : ℝ) - npMean (([⟨0, 2, 0, 0, 1⟩] : List Anomaly.Reading).map
              Anomaly.Reading.consumption)) /
            (if npStd (([⟨0, 2, 0, 0, 1⟩] : List Anomaly.Reading).map
                Anomaly.Reading.consumption) = 0 then 1
             else npStd (([⟨0, 2, 0, 0, 1⟩] : List Anomaly.Reading).map
                Anomaly.Reading.consumption))|) ∧
      (rec.is_anomaly = true ↔
        3 < |((2 : ℝ) - npMean (([⟨0, 2, 0, 0, 1⟩] : List Anomaly.Reading).map
              Anomaly.Reading.consumption)) /
            (if npStd (([⟨0, 2, 0, 0, 1⟩] : List Anomaly.Reading).map
                Anomaly.Reading.consumption) = 0 then 1
             else npStd (([⟨0, 2, 0, 0, 1⟩] : List Anomaly.Reading).map
                Anomaly.Reading.consumption))|) ∧
      rec.ts = 0 ∧ rec.consumption = 2 :=
  zscore_fallback_characterization [⟨0, 2, 0, 0, 1⟩] 0 ⟨0, 2, 0, 0, 1⟩ rfl

/-- C8 witness: the empty input gives zero counts and rate zero. -/
theorem anomaly_rate_formula_witness :
    (Anomaly.detectAndStore none [] []).1.anomaly_rate = 0 ∧
    (Anomaly.detectAndStore none [] []).1.total_anomalies = 0 ∧
    (Anomaly.detectAndStore none [] []).1.anomalies = [] :=
  (anomaly_rate_formula_and_bounds none [] []).2.2.2 rfl
